import Mathlib

/-!
Shallow embedding of the go-drive orchestration core (github.com/abduss/godrive).

Conventions of the embedding:
- UUIDs are modelled as natural numbers; `uuid.New()` values are supplied by
  the caller of each modelled operation (they are minted nondeterministically
  in the source).
- Go `int64` sizes are modelled as `Int` (no arithmetic in the source comes
  near the 64-bit boundary on the modelled paths).
- `time.Time` is modelled as `Int` (a point on a discrete timeline); Go's
  `a.After(b)` is `b < a`.
- Each fallible call into an external system (Postgres pool, MinIO client)
  takes its outcome from an explicit oracle structure (`UploadCalls`,
  `DeleteCalls`, ...): a `Bool` field is the success of one call site, an
  `Option` field carries the value the external system returned on success.
- The relational store is a `DB` value; SQL statements of the repositories
  are translated row-by-row (insert, filtered delete, upsert with GREATEST
  clamping, COALESCE defaults, cascade delete).
- The object store is the list of object names present in the single
  configured MinIO bucket.
- The SHA-256 digest of a streamed payload is an external library value; the
  payload is represented by the hex digest the hasher would produce for it.
- DB-assigned timestamp columns (created_at, updated_at) are not modelled:
  no modelled operation reads them.
-/

namespace GoDrive

/-- internal/file Metadata: stored information about an object
(timestamps omitted, see header). -/
structure Metadata where
  id : Nat
  bucketID : Nat
  objectName : String
  originalFilename : String
  sizeBytes : Int
  contentType : String
  checksum : String
  deriving Repr, DecidableEq

/-- internal/bucket UsageStats: aggregate file statistics for a bucket. -/
structure UsageStats where
  totalBytes : Int
  fileCount : Int
  deriving Repr, DecidableEq

/-- internal/bucket Bucket row (usage is derived on read, timestamps omitted). -/
structure Bucket where
  id : Nat
  ownerID : Nat
  name : String
  description : Option String
  deriving Repr, DecidableEq

/-- One row of the bucket_usage table. -/
structure UsageRow where
  bucketID : Nat
  totalBytes : Int
  fileCount : Int
  deriving Repr, DecidableEq

/-- One row of the usage_snapshots table. -/
structure Snapshot where
  userID : Nat
  totalBytes : Int
  fileCount : Int
  deriving Repr, DecidableEq

/-- The relational metadata store: buckets, files, bucket_usage,
usage_snapshots. -/
structure DB where
  buckets : List Bucket
  files : List Metadata
  usage : List UsageRow
  snapshots : List Snapshot
  deriving Repr, DecidableEq

/-- The two backing systems: the relational store and the object store (the
object names present in the configured MinIO bucket). -/
structure World where
  db : DB
  store : List String
  deriving Repr, DecidableEq

/-- Reading a bucket's usage row with COALESCE(..., 0) defaults, as the
bucket repository's Get/List queries do. -/
def lookupUsage (rows : List UsageRow) (b : Nat) : UsageStats :=
  match rows.find? (fun r => r.bucketID == b) with
  | some r => ⟨r.totalBytes, r.fileCount⟩
  | none => ⟨0, 0⟩

/-- bucket Repository.UpdateUsage: INSERT .. ON CONFLICT DO UPDATE SET
total_bytes = GREATEST(old + delta, 0), file_count = GREATEST(old + delta, 0).
A fresh insert stores the raw delta values. -/
def updateUsage (rows : List UsageRow) (b : Nat) (deltaBytes deltaFiles : Int) :
    List UsageRow :=
  match rows with
  | [] => [⟨b, deltaBytes, deltaFiles⟩]
  | r :: rest =>
    if r.bucketID == b then
      ⟨b, max (r.totalBytes + deltaBytes) 0, max (r.fileCount + deltaFiles) 0⟩ :: rest
    else
      r :: updateUsage rest b deltaBytes deltaFiles

/-- bucket Repository.Get: SELECT ... WHERE b.id = $1 AND b.owner_id = $2. -/
def getBucket (db : DB) (ownerID bucketID : Nat) : Option Bucket :=
  db.buckets.find? (fun b => b.id == bucketID && b.ownerID == ownerID)

/-- The aggregate of an owner's bucket usage rows, as computed by the
RecordUsageSnapshot CTE (SUM with COALESCE over a LEFT JOIN). -/
def ownerTotals (db : DB) (ownerID : Nat) : Int × Int :=
  (db.buckets.filter (fun b => b.ownerID == ownerID)).foldr
    (fun b acc =>
      ((lookupUsage db.usage b.id).totalBytes + acc.1,
       (lookupUsage db.usage b.id).fileCount + acc.2))
    (0, 0)

/-- bucket Repository.RecordUsageSnapshot: append one immutable aggregate row. -/
def recordUsageSnapshot (db : DB) (ownerID : Nat) : DB :=
  { db with snapshots :=
      db.snapshots ++ [⟨ownerID, (ownerTotals db ownerID).1, (ownerTotals db ownerID).2⟩] }

/-- MinIO PutObject on the modelled store: the object name becomes present. -/
def putObject (store : List String) (name : String) : List String :=
  if store.contains name then store else store ++ [name]

/-- MinIO RemoveObject on the modelled store: the object name becomes absent
(removing an absent name succeeds and is a no-op). -/
def removeObject (store : List String) (name : String) : List String :=
  store.filter (fun n => n != name)

/-- file Repository.Create: INSERT INTO files; the PRIMARY KEY (id) and
UNIQUE (bucket_id, object_name) constraints make a conflicting insert fail
(`none`). -/
def repoCreate (db : DB) (meta : Metadata) : Option DB :=
  if db.files.any (fun f =>
      f.id == meta.id || (f.bucketID == meta.bucketID && f.objectName == meta.objectName)) then
    none
  else
    some { db with files := db.files ++ [meta] }

/-- file Repository.Delete: DELETE FROM files f USING buckets b WHERE
f.id = $1 AND f.bucket_id = $2 AND b.id = f.bucket_id AND b.owner_id = $3
RETURNING the deleted row; no row deleted is ErrFileNotFound (`none`). -/
def repoDeleteFile (db : DB) (ownerID bucketID fileID : Nat) :
    Option (Metadata × DB) :=
  if db.buckets.any (fun b => b.id == bucketID && b.ownerID == ownerID) then
    match db.files.find? (fun f => f.id == fileID && f.bucketID == bucketID) with
    | some m =>
      some (m, { db with files := db.files.filter (fun f => !(f.id == fileID && f.bucketID == bucketID)) })
    | none => none
  else
    none

/-- bucket Repository.Delete: DELETE FROM buckets WHERE id AND owner_id;
zero rows affected is ErrBucketNotFound (`none`); the schema's ON DELETE
CASCADE removes the bucket's files rows and its bucket_usage row. -/
def repoDeleteBucketRow (db : DB) (ownerID bucketID : Nat) : Option DB :=
  if db.buckets.any (fun b => b.id == bucketID && b.ownerID == ownerID) then
    some { db with
      buckets := db.buckets.filter (fun b => !(b.id == bucketID && b.ownerID == ownerID)),
      files := db.files.filter (fun f => !(f.bucketID == bucketID)),
      usage := db.usage.filter (fun u => !(u.bucketID == bucketID)) }
  else
    none

/-- The error kinds the modelled operations surface, one constructor per
return site in the source. -/
inductive Err where
  | missingFilePayload
  | dbUnavailable
  | bucketMismatch
  | bucketNotFound
  | fileNotFound
  | fileTooLarge
  | openUploadFile
  | storeObject
  | createMetadata
  | updateUsageFailed
  | snapshotFailed
  | listBucketObjects
  | removeObjectErr (name : String)
  | invalidMethod
  | presignFailed
  | saveRecordFailed
  | saveAuditFailed
  | accessDeniedScope
  | accessDeniedOwner
  deriving Repr, DecidableEq

/-- The multipart.FileHeader handed to Service.Upload: declared size, client
filename, the Content-Type request header (empty when absent), and the hex
SHA-256 digest the hasher computes for the streamed bytes. -/
structure FileHeader where
  size : Int
  filename : String
  headerContentType : String
  digestHex : String
  deriving Repr, DecidableEq

/-- file detectContentType: the header value, or application/octet-stream
when it is empty. -/
def detectContentType (fh : FileHeader) : String :=
  if fh.headerContentType = "" then "application/octet-stream" else fh.headerContentType

/-- Go strings.TrimSpace (library code external to the repository), modelled
on the character list: drop whitespace from both ends. -/
def trimSpace (s : String) : String :=
  String.mk (((s.data.dropWhile Char.isWhitespace).reverse.dropWhile Char.isWhitespace).reverse)

/-- file sanitizeFilename: trim; an empty result becomes the placeholder. -/
def sanitizeFilename (name : String) : String :=
  let trimmed := trimSpace name
  if trimmed = "" then "upload" else trimmed

/-- Service.Upload object naming: fmt.Sprintf with bucketID/fileID. -/
def objectNameFor (bucketID fileID : Nat) : String :=
  toString bucketID ++ "/" ++ toString fileID

/-- Service.Upload actual-size logic: the store-reported size, except a
report of zero or less falls back to the declared size. -/
def actualSizeOf (reported declared : Int) : Int :=
  if reported ≤ 0 then declared else reported

/-- Outcomes of the external calls Service.Upload makes, one field per call
site, in call order. putResult is none when PutObject errors, otherwise the
UploadInfo.Size the store reported. -/
structure UploadCalls where
  bucketGetOk : Bool
  openOk : Bool
  putResult : Option Int
  removeAfterTooLargeOk : Bool
  createOk : Bool
  removeAfterCreateFailOk : Bool
  updateUsageOk : Bool
  snapshotOk : Bool
  deriving Repr, DecidableEq

deriving instance DecidableEq for Except

/-- Result of Service.Upload: the final state of both systems and the Go
return value. -/
structure UploadOutcome where
  world : World
  result : Except Err Metadata
  deriving Repr, DecidableEq

/-- file Service.Upload, translated branch for branch from the source:
nil-payload check; buckets.Get (ErrBucketNotFound becomes ErrBucketMismatch);
declared-size ceiling; object naming; Open; PutObject; actual-size re-check
with best-effort RemoveObject (error discarded); repo.Create with best-effort
RemoveObject on failure (error discarded); UpdateUsage (+size, +1) whose
failure is returned; RecordUsageSnapshot whose failure is discarded. -/
def upload (maxFileSize : Int) (w : World) (ownerID bucketID fileID : Nat)
    (fileHeader : Option FileHeader) (calls : UploadCalls) : UploadOutcome :=
  match fileHeader with
  | none => ⟨w, .error .missingFilePayload⟩
  | some fh =>
    if calls.bucketGetOk = false then ⟨w, .error .dbUnavailable⟩
    else if (getBucket w.db ownerID bucketID).isNone then ⟨w, .error .bucketMismatch⟩
    else if maxFileSize < fh.size then ⟨w, .error .fileTooLarge⟩
    else
      let objectName := objectNameFor bucketID fileID
      if calls.openOk = false then ⟨w, .error .openUploadFile⟩
      else
        match calls.putResult with
        | none => ⟨w, .error .storeObject⟩
        | some reported =>
          let store1 := putObject w.store objectName
          let actualSize := actualSizeOf reported fh.size
          if 0 < maxFileSize ∧ maxFileSize < actualSize then
            let store2 := if calls.removeAfterTooLargeOk then removeObject store1 objectName else store1
            ⟨⟨w.db, store2⟩, .error .fileTooLarge⟩
          else
            let meta : Metadata :=
              { id := fileID, bucketID := bucketID, objectName := objectName,
                originalFilename := sanitizeFilename fh.filename, sizeBytes := actualSize,
                contentType := detectContentType fh, checksum := fh.digestHex }
            if calls.createOk = false then
              let store2 := if calls.removeAfterCreateFailOk then removeObject store1 objectName else store1
              ⟨⟨w.db, store2⟩, .error .createMetadata⟩
            else
              match repoCreate w.db meta with
              | none =>
                let store2 := if calls.removeAfterCreateFailOk then removeObject store1 objectName else store1
                ⟨⟨w.db, store2⟩, .error .createMetadata⟩
              | some db1 =>
                if calls.updateUsageOk = false then ⟨⟨db1, store1⟩, .error .updateUsageFailed⟩
                else
                  let db2 : DB := { db1 with usage := updateUsage db1.usage bucketID meta.sizeBytes 1 }
                  let db3 := if calls.snapshotOk then recordUsageSnapshot db2 ownerID else db2
                  ⟨⟨db3, store1⟩, .ok meta⟩

/-- Outcomes of the external calls Service.Delete makes, in call order. -/
structure DeleteCalls where
  repoOk : Bool
  removeOk : Bool
  updateUsageOk : Bool
  snapshotOk : Bool
  deriving Repr, DecidableEq

/-- file Service.Delete, translated from the source: repo.Delete first
(ownership-checked, returns the deleted row or ErrFileNotFound); then
RemoveObject, whose failure is returned; then UpdateUsage (-size, -1), whose
failure is returned; then RecordUsageSnapshot, whose failure is discarded. -/
def deleteFile (w : World) (ownerID bucketID fileID : Nat) (calls : DeleteCalls) :
    World × Except Err Unit :=
  if calls.repoOk = false then (w, .error .dbUnavailable)
  else
    match repoDeleteFile w.db ownerID bucketID fileID with
    | none => (w, .error .fileNotFound)
    | some (meta, db1) =>
      if calls.removeOk = false then (⟨db1, w.store⟩, .error (.removeObjectErr meta.objectName))
      else
        let store1 := removeObject w.store meta.objectName
        if calls.updateUsageOk = false then (⟨db1, store1⟩, .error .updateUsageFailed)
        else
          let db2 : DB := { db1 with usage := updateUsage db1.usage bucketID (-meta.sizeBytes) (-1) }
          let db3 := if calls.snapshotOk then recordUsageSnapshot db2 ownerID else db2
          ((⟨db3, store1⟩ : World), .ok ())

/-- The minimal object metadata bucket.FileObject carries. -/
structure FileObject where
  objectName : String
  sizeBytes : Int
  deriving Repr, DecidableEq

/-- file Repository.ListObjectsForBucket: SELECT object_name, size_bytes
FROM files WHERE bucket_id = $1. -/
def listObjectsForBucket (db : DB) (bucketID : Nat) : List FileObject :=
  (db.files.filter (fun f => f.bucketID == bucketID)).map
    (fun f => ⟨f.objectName, f.sizeBytes⟩)

/-- The loop body of Service.deleteObjects: remove each listed object in
order, aborting at the first RemoveObject failure (removeFail holds the
object names whose removal the store rejects). -/
def removeAll (store : List String) (objs : List FileObject) (removeFail : List String) :
    List String × Option Err :=
  match objs with
  | [] => (store, none)
  | o :: rest =>
    if removeFail.contains o.objectName then (store, some (.removeObjectErr o.objectName))
    else removeAll (removeObject store o.objectName) rest removeFail

/-- Outcomes of the external calls Service.DeleteBucket makes, in call order. -/
structure DeleteBucketCalls where
  getOk : Bool
  listOk : Bool
  removeFail : List String
  repoDeleteOk : Bool
  snapshotOk : Bool
  deriving Repr, DecidableEq

/-- bucket Service.deleteObjects: a nil object store or file index skips the
sweep; otherwise list the bucket's objects and remove each, aborting on the
first failure. Only the object store is touched. -/
def deleteObjects (storeConfigured : Bool) (db : DB) (store : List String) (bucketID : Nat)
    (calls : DeleteBucketCalls) : List String × Option Err :=
  if storeConfigured = false then (store, none)
  else if calls.listOk = false then (store, some .listBucketObjects)
  else removeAll store (listObjectsForBucket db bucketID) calls.removeFail

/-- bucket Service.DeleteBucket, translated from the source: ownership check
via repo.Get; deleteObjects; repo.Delete (cascade); RecordUsageSnapshot,
whose failure is returned. -/
def deleteBucket (storeConfigured : Bool) (w : World) (ownerID bucketID : Nat)
    (calls : DeleteBucketCalls) : World × Except Err Unit :=
  if calls.getOk = false then (w, .error .dbUnavailable)
  else if (getBucket w.db ownerID bucketID).isNone then (w, .error .bucketNotFound)
  else
    match deleteObjects storeConfigured w.db w.store bucketID calls with
    | (store1, some e) => (⟨w.db, store1⟩, .error e)
    | (store1, none) =>
      if calls.repoDeleteOk = false then (⟨w.db, store1⟩, .error .dbUnavailable)
      else
        match repoDeleteBucketRow w.db ownerID bucketID with
        | none => (⟨w.db, store1⟩, .error .bucketNotFound)
        | some db1 =>
          if calls.snapshotOk = false then (⟨db1, store1⟩, .error .snapshotFailed)
          else ((⟨recordUsageSnapshot db1 ownerID, store1⟩ : World), .ok ())

/-- presigned Record: one row per issued URL. -/
structure PresignRecord where
  id : Nat
  objectID : Nat
  method : String
  expires : Int
  deriving Repr, DecidableEq

/-- presigned AuditRecord: actor, bucket, file, method, expiry, creation time. -/
structure AuditRecord where
  id : Nat
  userID : Nat
  bucketID : Nat
  fileID : Nat
  method : String
  expiresAt : Int
  createdAt : Int
  deriving Repr, DecidableEq

/-- The presigned repository's persisted state: issuance records and audit
records, both append-only. -/
structure PresignRepo where
  records : List PresignRecord
  audits : List AuditRecord
  deriving Repr, DecidableEq

/-- Outcomes of the external calls Service.GenerateURL makes: the minted URL
per method (none is a client error), and the success of the two repository
writes. -/
structure GenCalls where
  presignGet : Option String
  presignPut : Option String
  saveRecordOk : Bool
  saveAuditOk : Bool
  deriving Repr, DecidableEq

/-- The triple Service.GenerateURL returns on success. -/
structure GenOutput where
  url : String
  issued : PresignRecord
  audit : AuditRecord
  deriving Repr, DecidableEq

/-- presigned Service.GenerateURL, translated from the source: reject methods
other than GET and PUT; mint the URL for the method; persist the issuance
record (failure aborts with no repository change); persist the audit record
(failure aborts, the issuance record already persisted); return url, record
and audit. recID and audID stand for the two uuid.New() calls, now for
time.Now(), ttl for the configured expiry. -/
def generateURL (ttl now : Int) (recID audID : Nat) (repo : PresignRepo)
    (_bucketName _objectName method : String) (userID bucketID fileID : Nat)
    (calls : GenCalls) : PresignRepo × Except Err GenOutput :=
  if method ≠ "GET" ∧ method ≠ "PUT" then (repo, .error .invalidMethod)
  else
    let urlRes : Option String := if method = "GET" then calls.presignGet else calls.presignPut
    match urlRes with
    | none => (repo, .error .presignFailed)
    | some urlStr =>
      let issued : PresignRecord := ⟨recID, fileID, method, now + ttl⟩
      if calls.saveRecordOk = false then (repo, .error .saveRecordFailed)
      else
        let repo1 : PresignRepo := { repo with records := repo.records ++ [issued] }
        let audit : AuditRecord := ⟨audID, userID, bucketID, fileID, method, issued.expires, now⟩
        if calls.saveAuditOk = false then (repo1, .error .saveAuditFailed)
        else ({ repo1 with audits := repo1.audits ++ [audit] }, .ok ⟨urlStr, issued, audit⟩)

/-- presigned ScopeToken. -/
structure ScopeToken where
  userID : String
  bucket : String
  object : String
  canRead : Bool
  canWrite : Bool
  expiresAt : Int
  deriving Repr, DecidableEq

/-- presigned Service.ValidateOwnership. -/
def validateOwnership (userID ownerID : String) : Bool :=
  userID == ownerID

/-- presigned Service.ValidateScope, translated from the source; now stands
for time.Now(), and Go a.After(b) is b < a. -/
def validateScope (now : Int) (token : ScopeToken) (bucket object : String)
    (write : Bool) : Bool :=
  if token.expiresAt < now then false
  else if token.bucket ≠ bucket then false
  else if token.object ≠ object then false
  else if write && !token.canWrite then false
  else if !write && !token.canRead then false
  else true

/-- Outcomes of the MinIO presign calls the scope-token service makes. -/
structure MintCalls where
  getURL : Option String
  putURL : Option String
  deriving Repr, DecidableEq

/-- presigned Service.GenerateGetURL. -/
def generateGetURL (calls : MintCalls) : Except Err String :=
  match calls.getURL with
  | none => .error .presignFailed
  | some u => .ok u

/-- presigned Service.GeneratePutURL. -/
def generatePutURL (calls : MintCalls) : Except Err String :=
  match calls.putURL with
  | none => .error .presignFailed
  | some u => .ok u

/-- The tail of GeneratePresignedWithAccessCheck after the scope check:
ownership check, then mint for the requested direction. -/
def generateAfterScope (userID ownerID : String) (write : Bool) (calls : MintCalls) :
    Except Err String :=
  if validateOwnership userID ownerID = false then .error .accessDeniedOwner
  else if write then generatePutURL calls
  else generateGetURL calls

/-- presigned Service.GeneratePresignedWithAccessCheck, translated from the
source: a non-nil scope token must validate, then ownership must hold, then
the URL is minted for the requested direction. No repository write occurs
anywhere in this function. -/
def generatePresignedWithAccessCheck (now : Int) (bucket object userID ownerID : String)
    (scope : Option ScopeToken) (write : Bool) (calls : MintCalls) : Except Err String :=
  match scope with
  | some tok =>
    if validateScope now tok bucket object write = false then .error .accessDeniedScope
    else generateAfterScope userID ownerID write calls
  | none => generateAfterScope userID ownerID write calls

/-- The repositories the presigned HTTP handler reads: GetBucketByID and
GetFileByID resolve by id alone, with no ownership filter. -/
structure HandlerDeps where
  buckets : List Bucket
  files : List Metadata
  deriving Repr, DecidableEq

/-- The transport-visible outcome of the handler: HTTP status, and the url
and method fields of a 200 body. -/
structure HttpResponse where
  status : Nat
  url : Option String
  method : Option String
  deriving Repr, DecidableEq

/-- presigned Handler.GeneratePresignedURL, translated from the source
(after request parsing): DefaultQuery gives method GET; resolve bucket and
file by id; require the caller to be the bucket owner; require the file to
belong to the bucket; isPut is method == PUT; delegate to
GeneratePresignedWithAccessCheck with a nil scope token. The handler never
writes to the presigned repository, which it returns unchanged. -/
def handlerGeneratePresignedURL (now : Int) (deps : HandlerDeps) (userID bucketID fileID : Nat)
    (methodQuery : Option String) (calls : MintCalls) (repo : PresignRepo) :
    HttpResponse × PresignRepo :=
  let method := methodQuery.getD "GET"
  match deps.buckets.find? (fun b => b.id == bucketID) with
  | none => (⟨404, none, none⟩, repo)
  | some bk =>
    match deps.files.find? (fun f => f.id == fileID) with
    | none => (⟨404, none, none⟩, repo)
    | some fm =>
      if bk.ownerID ≠ userID then (⟨403, none, none⟩, repo)
      else if fm.bucketID ≠ bk.id then (⟨400, none, none⟩, repo)
      else
        let isPut := method == "PUT"
        match generatePresignedWithAccessCheck now bk.name fm.objectName
            (toString userID) (toString bk.ownerID) none isPut calls with
        | .error _ => (⟨403, none, none⟩, repo)
        | .ok url => (⟨200, some url, some method⟩, repo)

/-- A completed client operation against a bucket: a file upload (with its
minted file id, payload header and the size the store reports back) or a
file delete. -/
inductive Op where
  | upload (ownerID bucketID fileID : Nat) (fh : FileHeader) (reported : Int)
  | remove (ownerID bucketID fileID : Nat)
  deriving Repr, DecidableEq

/-- The oracle of an upload whose external calls all succeed. -/
def uploadCallsOk (reported : Int) : UploadCalls :=
  ⟨true, true, some reported, true, true, true, true, true⟩

/-- The oracle of a delete whose external calls all succeed. -/
def deleteCallsOk : DeleteCalls :=
  ⟨true, true, true, true⟩

/-- Run one operation with every external call succeeding, keeping the final
state of both systems. -/
def runOp (maxFileSize : Int) (w : World) : Op → World
  | .upload o b f fh rep => (upload maxFileSize w o b f (some fh) (uploadCallsOk rep)).world
  | .remove o b f => (deleteFile w o b f deleteCallsOk).1

/-- Run a finite sequence of operations. -/
def runOps (maxFileSize : Int) (w : World) : List Op → World
  | [] => w
  | op :: rest => runOps maxFileSize (runOp maxFileSize w op) rest

/-- The size the client declares for an operation (zero for a delete). -/
def opDeclared : Op → Int
  | .upload _ _ _ fh _ => fh.size
  | .remove _ _ _ => 0

/-- The live file-metadata rows of one bucket. -/
def filesOf (db : DB) (b : Nat) : List Metadata :=
  db.files.filter (fun f => f.bucketID == b)

/-- Sum of SizeBytes over a list of file-metadata rows. -/
def sumSizes (l : List Metadata) : Int :=
  (l.map (fun f => f.sizeBytes)).sum

/-- The spec's usage-accounting invariant: for every bucket, the usage
counters read back (with COALESCE defaults) equal the sum of SizeBytes over
the bucket's live file rows and their count. -/
def UsageInv (db : DB) : Prop :=
  ∀ b : Nat,
    (lookupUsage db.usage b).totalBytes = sumSizes (filesOf db b) ∧
    (lookupUsage db.usage b).fileCount = ((filesOf db b).length : Int)

/-- Structural wellformedness the schema enforces: file ids are unique
(PRIMARY KEY) and sizes are the nonnegative byte counts multipart reports. -/
def WF (db : DB) : Prop :=
  (db.files.map (fun f => f.id)).Nodup ∧ ∀ f ∈ db.files, 0 ≤ f.sizeBytes

theorem lookupUsage_updateUsage_self_found (u : List UsageRow) (b : Nat) (db df : Int)
    (r : UsageRow) (h : u.find? (fun x => x.bucketID == b) = some r) :
    lookupUsage (updateUsage u b db df) b =
      ⟨max (r.totalBytes + db) 0, max (r.fileCount + df) 0⟩ := by
  induction u with
  | nil => simp [List.find?] at h
  | cons x rest ih =>
    rw [List.find?_cons] at h
    cases hx : (x.bucketID == b) with
    | true =>
      rw [hx] at h
      cases h
      simp [updateUsage, lookupUsage, hx, List.find?_cons]
    | false =>
      rw [hx] at h
      have hrec := ih h
      simp only [updateUsage, lookupUsage, hx, Bool.false_eq_true, if_false] at hrec ⊢
      rw [List.find?_cons, hx]
      exact hrec

theorem lookupUsage_updateUsage_self_none (u : List UsageRow) (b : Nat) (db df : Int)
    (h : u.find? (fun x => x.bucketID == b) = none) :
    lookupUsage (updateUsage u b db df) b = ⟨db, df⟩ := by
  induction u with
  | nil => simp [updateUsage, lookupUsage, List.find?]
  | cons x rest ih =>
    rw [List.find?_cons] at h
    cases hx : (x.bucketID == b) with
    | true => rw [hx] at h; exact absurd h (by simp)
    | false =>
      rw [hx] at h
      have hrec := ih h
      simp only [updateUsage, lookupUsage, hx, Bool.false_eq_true, if_false] at hrec ⊢
      rw [List.find?_cons, hx]
      exact hrec

theorem lookupUsage_updateUsage_other (u : List UsageRow) (b c : Nat) (db df : Int)
    (h : c ≠ b) :
    lookupUsage (updateUsage u b db df) c = lookupUsage u c := by
  have hbc : (b == c) = false := beq_eq_false_iff_ne.mpr (Ne.symm h)
  induction u with
  | nil => simp [updateUsage, lookupUsage, List.find?, hbc]
  | cons x rest ih =>
    cases hx : (x.bucketID == b) with
    | true =>
      have hxb : x.bucketID = b := by simpa using hx
      have hxc : (x.bucketID == c) = false := by
        rw [hxb]; exact hbc
      simp only [updateUsage, lookupUsage, hx, if_true]
      rw [List.find?_cons, List.find?_cons, hxc, hbc]
    | false =>
      simp only [updateUsage, lookupUsage, hx, Bool.false_eq_true, if_false] at ih ⊢
      rw [List.find?_cons, List.find?_cons]
      cases hxc : (x.bucketID == c) with
      | true => rfl
      | false => exact ih

theorem sumSizes_append (l1 l2 : List Metadata) :
    sumSizes (l1 ++ l2) = sumSizes l1 + sumSizes l2 := by
  simp [sumSizes]

theorem sumSizes_perm {l1 l2 : List Metadata} (h : l1.Perm l2) :
    sumSizes l1 = sumSizes l2 := by
  simpa [sumSizes] using (h.map (fun f => f.sizeBytes)).sum_eq

theorem sumSizes_nonneg (l : List Metadata) (h : ∀ f ∈ l, 0 ≤ f.sizeBytes) :
    0 ≤ sumSizes l := by
  apply List.sum_nonneg
  intro x hx
  rcases List.mem_map.mp hx with ⟨f, hf, rfl⟩
  exact h f hf

theorem filter_delete_eq_of_no_id (l : List Metadata) (fid b : Nat)
    (h : ∀ f ∈ l, f.id ≠ fid) :
    l.filter (fun f => !(f.id == fid && f.bucketID == b)) = l := by
  apply List.filter_eq_self.mpr
  intro f hf
  simp [h f hf]

theorem perm_delete_found (l : List Metadata) (fid b : Nat) (m : Metadata)
    (hnd : (l.map (fun f => f.id)).Nodup)
    (hfind : l.find? (fun f => f.id == fid && f.bucketID == b) = some m) :
    l.Perm (m :: l.filter (fun f => !(f.id == fid && f.bucketID == b))) := by
  induction l with
  | nil => simp [List.find?] at hfind
  | cons x rest ih =>
    rw [List.find?_cons] at hfind
    rw [List.map_cons, List.nodup_cons] at hnd
    cases hx : (x.id == fid && x.bucketID == b) with
    | true =>
      rw [hx] at hfind
      have hxm : x = m := by injection hfind
      subst hxm
      have hxid : x.id = fid := by
        have hparts := Bool.and_eq_true_iff.mp hx
        simpa using hparts.1
      have hrest : ∀ f ∈ rest, f.id ≠ fid := by
        intro f hf hcontra
        exact hnd.1 (by rw [hxid, ← hcontra]; exact List.mem_map_of_mem _ hf)
      rw [List.filter_cons]
      simp only [hx, Bool.not_true, Bool.false_eq_true, if_false]
      rw [filter_delete_eq_of_no_id rest fid b hrest]
    | false =>
      rw [hx] at hfind
      have hperm := ih hnd.2 hfind
      rw [List.filter_cons]
      simp only [hx, Bool.not_false, if_true]
      exact List.Perm.trans (hperm.cons x) (List.Perm.swap m x _)

theorem lookupUsage_eq_found (u : List UsageRow) (b : Nat) (r : UsageRow)
    (h : u.find? (fun x => x.bucketID == b) = some r) :
    lookupUsage u b = ⟨r.totalBytes, r.fileCount⟩ := by
  unfold lookupUsage
  rw [h]

theorem lookupUsage_eq_none (u : List UsageRow) (b : Nat)
    (h : u.find? (fun x => x.bucketID == b) = none) :
    lookupUsage u b = ⟨0, 0⟩ := by
  unfold lookupUsage
  rw [h]

theorem actualSizeOf_nonneg (reported declared : Int) (h : 0 ≤ declared) :
    0 ≤ actualSizeOf reported declared := by
  unfold actualSizeOf
  by_cases hr : reported ≤ 0
  · simpa [hr]
  · simp only [hr, if_false]
    omega

theorem inv_after_insert (db : DB) (meta : Metadata) (b : Nat)
    (hwf : WF db) (hinv : UsageInv db) (hb : meta.bucketID = b) (hsz : 0 ≤ meta.sizeBytes)
    (hfresh : ∀ g ∈ db.files, g.id ≠ meta.id) :
    WF { db with files := db.files ++ [meta], usage := updateUsage db.usage b meta.sizeBytes 1 } ∧
    UsageInv { db with files := db.files ++ [meta], usage := updateUsage db.usage b meta.sizeBytes 1 } := by
  constructor
  · constructor
    · have hnotmem : meta.id ∉ db.files.map (fun f => f.id) := by
        intro hmem
        rcases List.mem_map.mp hmem with ⟨g, hg, hgid⟩
        exact hfresh g hg hgid
      simpa [List.nodup_append, hwf.1] using hnotmem
    · intro g hg
      rcases List.mem_append.mp hg with hgl | hgr
      · exact hwf.2 g hgl
      · rw [List.mem_singleton.mp hgr]
        exact hsz
  · intro c
    simp only [UsageInv, filesOf] at hinv ⊢
    by_cases hc : c = b
    · subst hc
      rw [List.filter_append]
      have hmetafilter : [meta].filter (fun f => f.bucketID == c) = [meta] := by
        simp [hb]
      rw [hmetafilter]
      have hsingle : sumSizes [meta] = meta.sizeBytes := by simp [sumSizes]
      have hsumnn : 0 ≤ sumSizes (db.files.filter (fun f => f.bucketID == c)) :=
        sumSizes_nonneg _ (fun g hg => hwf.2 g (List.mem_of_mem_filter hg))
      cases hf : db.usage.find? (fun x => x.bucketID == c) with
      | some r =>
        rw [lookupUsage_updateUsage_self_found _ _ _ _ _ hf]
        have hl := lookupUsage_eq_found _ _ _ hf
        obtain ⟨h1, h2⟩ := hinv c
        replace h1 : r.totalBytes = sumSizes (db.files.filter (fun f => f.bucketID == c)) := by
          rw [hl] at h1; exact h1
        replace h2 : r.fileCount = ((db.files.filter (fun f => f.bucketID == c)).length : Int) := by
          rw [hl] at h2; exact h2
        refine ⟨?_, ?_⟩
        · show max (r.totalBytes + meta.sizeBytes) 0 = _
          rw [sumSizes_append, hsingle, max_eq_left (by omega)]
          omega
        · show max (r.fileCount + 1) 0 = ((_ ++ [meta]).length : Int)
          rw [List.length_append, max_eq_left (by omega)]
          simp only [List.length_singleton]
          push_cast
          omega
      | none =>
        rw [lookupUsage_updateUsage_self_none _ _ _ _ hf]
        have hl := lookupUsage_eq_none _ _ hf
        obtain ⟨h1, h2⟩ := hinv c
        replace h1 : (0 : Int) = sumSizes (db.files.filter (fun f => f.bucketID == c)) := by
          rw [hl] at h1; exact h1
        replace h2 : (0 : Int) = ((db.files.filter (fun f => f.bucketID == c)).length : Int) := by
          rw [hl] at h2; exact h2
        refine ⟨?_, ?_⟩
        · show meta.sizeBytes = _
          rw [sumSizes_append, hsingle]
          omega
        · show (1 : Int) = ((_ ++ [meta]).length : Int)
          rw [List.length_append]
          simp only [List.length_singleton]
          push_cast
          omega
    · rw [lookupUsage_updateUsage_other _ _ _ _ _ hc]
      rw [List.filter_append]
      have hmetafilter : [meta].filter (fun f => f.bucketID == c) = [] := by
        simp [hb, Ne.symm hc]
      rw [hmetafilter, List.append_nil]
      exact hinv c

theorem inv_after_delete (db : DB) (fid b : Nat) (m : Metadata)
    (hwf : WF db) (hinv : UsageInv db)
    (hfind : db.files.find? (fun f => f.id == fid && f.bucketID == b) = some m) :
    WF { db with files := db.files.filter (fun f => !(f.id == fid && f.bucketID == b)),
                 usage := updateUsage db.usage b (-m.sizeBytes) (-1) } ∧
    UsageInv { db with files := db.files.filter (fun f => !(f.id == fid && f.bucketID == b)),
                       usage := updateUsage db.usage b (-m.sizeBytes) (-1) } := by
  have hq := List.find?_some hfind
  have hmb : m.bucketID = b := by
    have hparts := Bool.and_eq_true_iff.mp hq
    simpa using hparts.2
  have hm : m ∈ db.files := List.mem_of_find?_eq_some hfind
  have hperm := perm_delete_found db.files fid b m hwf.1 hfind
  constructor
  · constructor
    · exact ((List.filter_sublist db.files).map (fun f => f.id)).nodup hwf.1
    · intro g hg
      exact hwf.2 g (List.mem_of_mem_filter hg)
  · intro c
    simp only [UsageInv, filesOf] at hinv ⊢
    by_cases hc : c = b
    · subst hc
      have hpermc := hperm.filter (fun f => f.bucketID == c)
      rw [List.filter_cons] at hpermc
      simp only [hmb, beq_self_eq_true, if_true] at hpermc
      have hsum := sumSizes_perm hpermc
      have hsumcons : sumSizes (m :: (db.files.filter (fun f => !(f.id == fid && f.bucketID == c))).filter (fun f => f.bucketID == c)) =
          m.sizeBytes + sumSizes ((db.files.filter (fun f => !(f.id == fid && f.bucketID == c))).filter (fun f => f.bucketID == c)) := by
        simp [sumSizes]
      have hlen := hpermc.length_eq
      rw [List.length_cons] at hlen
      have hsumnn : 0 ≤ sumSizes ((db.files.filter (fun f => !(f.id == fid && f.bucketID == c))).filter (fun f => f.bucketID == c)) :=
        sumSizes_nonneg _
          (fun g hg => hwf.2 g (List.mem_of_mem_filter (List.mem_of_mem_filter hg)))
      cases hf : db.usage.find? (fun x => x.bucketID == c) with
      | some r =>
        rw [lookupUsage_updateUsage_self_found _ _ _ _ _ hf]
        have hl := lookupUsage_eq_found _ _ _ hf
        obtain ⟨h1, h2⟩ := hinv c
        replace h1 : r.totalBytes = sumSizes (db.files.filter (fun f => f.bucketID == c)) := by
          rw [hl] at h1; exact h1
        replace h2 : r.fileCount = ((db.files.filter (fun f => f.bucketID == c)).length : Int) := by
          rw [hl] at h2; exact h2
        rw [hsumcons] at hsum
        refine ⟨?_, ?_⟩
        · show max (r.totalBytes + -m.sizeBytes) 0 = _
          rw [max_eq_left (by omega)]
          omega
        · show max (r.fileCount + -1) 0 = _
          rw [max_eq_left (by omega)]
          omega
      | none =>
        exfalso
        have hl := lookupUsage_eq_none _ _ hf
        obtain ⟨h1, h2⟩ := hinv c
        replace h2 : (0 : Int) = ((db.files.filter (fun f => f.bucketID == c)).length : Int) := by
          rw [hl] at h2; exact h2
        omega
    · rw [lookupUsage_updateUsage_other _ _ _ _ _ hc]
      have hpermc := hperm.filter (fun f => f.bucketID == c)
      rw [List.filter_cons] at hpermc
      have hmc : (m.bucketID == c) = false := by
        rw [hmb]
        exact beq_eq_false_iff_ne.mpr (Ne.symm hc)
      simp only [hmc, Bool.false_eq_true, if_false] at hpermc
      obtain ⟨h1, h2⟩ := hinv c
      refine ⟨?_, ?_⟩
      · rw [h1]
        exact sumSizes_perm hpermc
      · rw [h2]
        exact_mod_cast hpermc.length_eq

theorem upload_preserves (mfs : Int) (w : World) (o b f : Nat) (fh : FileHeader) (rep : Int)
    (hwf : WF w.db) (hinv : UsageInv w.db) (hsz : 0 ≤ fh.size) :
    WF ((upload mfs w o b f (some fh) (uploadCallsOk rep)).world).db ∧
    UsageInv ((upload mfs w o b f (some fh) (uploadCallsOk rep)).world).db := by
  unfold upload uploadCallsOk
  simp only [Bool.true_eq_false, if_false, ite_false, if_true, ite_true]
  split_ifs with h1 h2 h3
  · exact ⟨hwf, hinv⟩
  · exact ⟨hwf, hinv⟩
  · exact ⟨hwf, hinv⟩
  · split
    · exact ⟨hwf, hinv⟩
    · next db1 heq =>
      unfold repoCreate at heq
      split at heq
      · exact absurd heq (by simp)
      · next hany =>
        have hdb1 : { w.db with files := w.db.files ++
            [({ id := f, bucketID := b, objectName := objectNameFor b f,
                originalFilename := sanitizeFilename fh.filename,
                sizeBytes := actualSizeOf rep fh.size,
                contentType := detectContentType fh,
                checksum := fh.digestHex } : Metadata)] } = db1 := by
          injection heq
        subst hdb1
        have hfresh : ∀ g ∈ w.db.files, g.id ≠ f := by
          intro g hg hid
          apply hany
          apply List.any_eq_true.mpr
          exact ⟨g, hg, by simp [hid]⟩
        exact inv_after_insert w.db _ b hwf hinv rfl
          (actualSizeOf_nonneg rep fh.size hsz) hfresh

theorem deleteFile_preserves (w : World) (o b f : Nat)
    (hwf : WF w.db) (hinv : UsageInv w.db) :
    WF (((deleteFile w o b f deleteCallsOk).1).db) ∧
    UsageInv (((deleteFile w o b f deleteCallsOk).1).db) := by
  unfold deleteFile deleteCallsOk
  simp only [Bool.true_eq_false, if_false, ite_false, if_true, ite_true]
  split
  · exact ⟨hwf, hinv⟩
  · next m db1 heq =>
    unfold repoDeleteFile at heq
    split at heq
    · split at heq
      · next m2 hfind =>
        have hm2 : m2 = m := by injection heq with hpair; injection hpair
        have hdb1 : { w.db with files := w.db.files.filter (fun g => !(g.id == f && g.bucketID == b)) } = db1 := by
          injection heq with hpair; injection hpair
        subst hm2
        subst hdb1
        exact inv_after_delete w.db f b m2 hwf hinv hfind
      · exact absurd heq (by simp)
    · exact absurd heq (by simp)

theorem runOp_preserves (mfs : Int) (w : World) (op : Op)
    (hwf : WF w.db) (hinv : UsageInv w.db) (hd : 0 ≤ opDeclared op) :
    WF ((runOp mfs w op).db) ∧ UsageInv ((runOp mfs w op).db) := by
  cases op with
  | upload o b f fh rep => exact upload_preserves mfs w o b f fh rep hwf hinv hd
  | remove o b f => exact deleteFile_preserves w o b f hwf hinv

/-- C1: for every bucket, after any finite sequence of completed file uploads
and file deletes (every external call succeeding), the usage counters satisfy
TotalBytes = sum of SizeBytes over the bucket's live file-metadata rows and
FileCount = their count. The deltas applied are (+stored.SizeBytes, +1) inside
the upload step and (-meta.SizeBytes, -1) inside the delete step, as the
definitions of upload and deleteFile show. Holds for any starting state that
satisfies the invariant and the schema's wellformedness, with the nonnegative
declared sizes multipart produces. -/
theorem usage_counters_track_files (maxFileSize : Int) (w : World) (ops : List Op)
    (hwf : WF w.db) (hinv : UsageInv w.db)
    (hdecl : ∀ op ∈ ops, 0 ≤ opDeclared op) :
    UsageInv (runOps maxFileSize w ops).db ∧ WF (runOps maxFileSize w ops).db := by
  induction ops generalizing w with
  | nil => exact ⟨hinv, hwf⟩
  | cons op rest ih =>
    have hstep := runOp_preserves maxFileSize w op hwf hinv (hdecl op (List.mem_cons_self _ _))
    exact ih (runOp maxFileSize w op) hstep.1 hstep.2
      (fun o2 ho => hdecl o2 (List.mem_cons_of_mem _ ho))

/-- Witness for C1: one bucket, an 11-byte upload followed by its delete,
starting from an empty store. -/
theorem usage_counters_track_files_witness :
    UsageInv (runOps 100 ⟨⟨[⟨1, 7, "docs", none⟩], [], [], []⟩, []⟩
      [.upload 7 1 2 ⟨11, "notes.txt", "text/plain", "abc"⟩ 11, .remove 7 1 2]).db ∧
    WF (runOps 100 ⟨⟨[⟨1, 7, "docs", none⟩], [], [], []⟩, []⟩
      [.upload 7 1 2 ⟨11, "notes.txt", "text/plain", "abc"⟩ 11, .remove 7 1 2]).db :=
  usage_counters_track_files 100 _ _
    (by constructor <;> simp [WF])
    (by intro b; simp [UsageInv, lookupUsage, filesOf, sumSizes, List.find?])
    (by decide)

theorem removeAll_fails (store : List String) (objs : List FileObject) (rf : List String)
    (h : ∃ o ∈ objs, o.objectName ∈ rf) :
    ∃ name st, name ∈ rf ∧ removeAll store objs rf = (st, some (.removeObjectErr name)) := by
  induction objs generalizing store with
  | nil =>
    rcases h with ⟨o, ho, _⟩
    cases ho
  | cons x rest ih =>
    by_cases hx : x.objectName ∈ rf
    · exact ⟨x.objectName, store, hx, by simp [removeAll, hx]⟩
    · rcases h with ⟨o, ho, hor⟩
      rcases List.mem_cons.mp ho with rfl | hrest
      · exact absurd hor hx
      · rcases ih (removeObject store x.objectName) ⟨o, hrest, hor⟩ with ⟨name, st, hn, hr⟩
        exact ⟨name, st, hn, by simp [removeAll, hx, hr]⟩

/-- C2: if the object store rejects the removal of any object of the bucket,
DeleteBucket aborts with that removal error and no metadata is deleted: the
whole relational state (bucket row, file rows, usage row, snapshots) is
exactly the initial one. -/
theorem deleteBucket_atomic_on_removal_failure (w : World) (o b : Nat)
    (calls : DeleteBucketCalls)
    (hget : calls.getOk = true) (hlist : calls.listOk = true)
    (hbucket : (getBucket w.db o b).isSome = true)
    (hfail : ∃ obj ∈ listObjectsForBucket w.db b, obj.objectName ∈ calls.removeFail) :
    (∃ name, name ∈ calls.removeFail ∧
      (deleteBucket true w o b calls).2 = .error (.removeObjectErr name)) ∧
    ((deleteBucket true w o b calls).1).db = w.db := by
  rcases Option.isSome_iff_exists.mp hbucket with ⟨bk, hbk⟩
  rcases removeAll_fails w.store (listObjectsForBucket w.db b) calls.removeFail hfail
    with ⟨name, st, hn, hr⟩
  unfold deleteBucket deleteObjects
  simp only [hget, hlist, hbk, Option.isNone_some, Bool.true_eq_false, if_false, ite_false, hr]
  exact ⟨⟨name, hn, rfl⟩, rfl⟩

/-- Witness for C2: one bucket with one stored object whose removal fails. -/
theorem deleteBucket_atomic_on_removal_failure_witness :
    (∃ name, name ∈ ["1/2"] ∧
      (deleteBucket true ⟨⟨[⟨1, 7, "docs", none⟩], [⟨2, 1, "1/2", "f", 3, "t", "c"⟩], [⟨1, 3, 1⟩], []⟩, ["1/2"]⟩
        7 1 ⟨true, true, ["1/2"], true, true⟩).2 = .error (.removeObjectErr name)) ∧
    ((deleteBucket true ⟨⟨[⟨1, 7, "docs", none⟩], [⟨2, 1, "1/2", "f", 3, "t", "c"⟩], [⟨1, 3, 1⟩], []⟩, ["1/2"]⟩
        7 1 ⟨true, true, ["1/2"], true, true⟩).1).db =
      ⟨[⟨1, 7, "docs", none⟩], [⟨2, 1, "1/2", "f", 3, "t", "c"⟩], [⟨1, 3, 1⟩], []⟩ :=
  deleteBucket_atomic_on_removal_failure
    ⟨⟨[⟨1, 7, "docs", none⟩], [⟨2, 1, "1/2", "f", 3, "t", "c"⟩], [⟨1, 3, 1⟩], []⟩, ["1/2"]⟩
    7 1 ⟨true, true, ["1/2"], true, true⟩ rfl rfl (by decide) (by decide)

/-- C3: in Upload, file metadata is created only after the object-store write
succeeds (a PutObject failure, and any earlier exit, leaves both systems
untouched — second conjunct), and if the metadata persistence step fails
the persistence error is returned, no metadata row exists (the relational
state is the initial one), and one best-effort RemoveObject of the
just-written object is attempted whose own failure changes nothing about the
returned error (first conjunct: the result is the same createMetadata error
whether or not the compensating removal succeeds). -/
theorem upload_create_after_put_with_compensation
    (mfs : Int) (w : World) (o b f : Nat) (fh : FileHeader) (calls : UploadCalls) (rep : Int)
    (hbg : calls.bucketGetOk = true)
    (hopen : calls.openOk = true)
    (hput : calls.putResult = some rep)
    (hbucket : (getBucket w.db o b).isSome = true)
    (hsize : ¬mfs < fh.size)
    (hactual : ¬(0 < mfs ∧ mfs < actualSizeOf rep fh.size))
    (hcreate : calls.createOk = false) :
    upload mfs w o b f (some fh) calls =
      ⟨⟨w.db, if calls.removeAfterCreateFailOk
          then removeObject (putObject w.store (objectNameFor b f)) (objectNameFor b f)
          else putObject w.store (objectNameFor b f)⟩,
        .error .createMetadata⟩ ∧
    (∀ calls2 : UploadCalls, calls2.putResult = none →
      ((upload mfs w o b f (some fh) calls2).world).db = w.db ∧
      ((upload mfs w o b f (some fh) calls2).world).store = w.store) := by
  rcases Option.isSome_iff_exists.mp hbucket with ⟨bk, hbk⟩
  constructor
  · unfold upload
    simp only [hbg, hopen, hput, hbk, Option.isNone_some, Bool.true_eq_false,
      Bool.false_eq_true, if_false, ite_false, if_neg hsize, if_neg hactual, hcreate,
      if_true, ite_true]
  · intro calls2 hput2
    unfold upload
    simp only [hput2]
    split_ifs <;> exact ⟨rfl, rfl⟩

/-- Witness for C3: a concrete upload whose metadata insert fails and whose
compensating removal also fails; the persistence error is still the one
returned and the relational state is untouched. -/
theorem upload_create_after_put_with_compensation_witness :
    upload 100 ⟨⟨[⟨1, 7, "docs", none⟩], [], [], []⟩, []⟩ 7 1 2
        (some ⟨11, "notes.txt", "text/plain", "abc"⟩)
        ⟨true, true, some 11, true, false, false, true, true⟩ =
      ⟨⟨⟨[⟨1, 7, "docs", none⟩], [], [], []⟩,
          if (⟨true, true, some 11, true, false, false, true, true⟩ : UploadCalls).removeAfterCreateFailOk
          then removeObject (putObject [] (objectNameFor 1 2)) (objectNameFor 1 2)
          else putObject [] (objectNameFor 1 2)⟩,
        .error .createMetadata⟩ ∧
    (∀ calls2 : UploadCalls, calls2.putResult = none →
      ((upload 100 ⟨⟨[⟨1, 7, "docs", none⟩], [], [], []⟩, []⟩ 7 1 2
          (some ⟨11, "notes.txt", "text/plain", "abc"⟩) calls2).world).db =
        ⟨[⟨1, 7, "docs", none⟩], [], [], []⟩ ∧
      ((upload 100 ⟨⟨[⟨1, 7, "docs", none⟩], [], [], []⟩, []⟩ 7 1 2
          (some ⟨11, "notes.txt", "text/plain", "abc"⟩) calls2).world).store = []) :=
  upload_create_after_put_with_compensation 100
    ⟨⟨[⟨1, 7, "docs", none⟩], [], [], []⟩, []⟩ 7 1 2
    ⟨11, "notes.txt", "text/plain", "abc"⟩
    ⟨true, true, some 11, true, false, false, true, true⟩ 11
    rfl rfl rfl (by decide) (by decide) (by decide) rfl

/-- C4 counterexample: declared size 5 is within the maximum 10, the store
reports 11 written bytes, and the best-effort RemoveObject fails (its error
is discarded by the source). Upload returns TooLarge as claimed, but the
just-written object 1/2 REMAINS in the store, refuting the claim that no
object for that upload remains. -/
theorem upload_toolarge_leaves_object_counterexample :
    (upload 10 ⟨⟨[⟨1, 7, "docs", none⟩], [], [], []⟩, []⟩ 7 1 2 (some ⟨5, "a", "", "h"⟩)
      ⟨true, true, some 11, false, true, true, true, true⟩).result = .error .fileTooLarge ∧
    objectNameFor 1 2 ∈ ((upload 10 ⟨⟨[⟨1, 7, "docs", none⟩], [], [], []⟩, []⟩ 7 1 2
      (some ⟨5, "a", "", "h"⟩)
      ⟨true, true, some 11, false, true, true, true, true⟩).world).store := by
  exact ⟨rfl, by decide⟩

/-- C4 amended: when the store-reported size exceeds the positive maximum,
Upload attempts one best-effort delete of the just-written object and returns
TooLarge with no metadata written; the object is absent from the store
afterwards whenever that removal succeeds (but can remain when it fails, see
the counterexample); and an upload whose declared size already exceeds the
maximum is rejected with TooLarge before any object write. -/
theorem upload_toolarge_recheck
    (mfs : Int) (w : World) (o b f : Nat) (fh : FileHeader) (calls : UploadCalls) (rep : Int)
    (hbg : calls.bucketGetOk = true)
    (hopen : calls.openOk = true)
    (hput : calls.putResult = some rep)
    (hbucket : (getBucket w.db o b).isSome = true)
    (hsize : ¬mfs < fh.size)
    (hover : 0 < mfs ∧ mfs < actualSizeOf rep fh.size) :
    (upload mfs w o b f (some fh) calls).result = .error .fileTooLarge ∧
    ((upload mfs w o b f (some fh) calls).world).db = w.db ∧
    ((upload mfs w o b f (some fh) calls).world).store =
      (if calls.removeAfterTooLargeOk
        then removeObject (putObject w.store (objectNameFor b f)) (objectNameFor b f)
        else putObject w.store (objectNameFor b f)) ∧
    (calls.removeAfterTooLargeOk = true →
      objectNameFor b f ∉ ((upload mfs w o b f (some fh) calls).world).store) ∧
    (∀ fh2 : FileHeader, mfs < fh2.size →
      upload mfs w o b f (some fh2) calls = ⟨w, .error .fileTooLarge⟩) := by
  rcases Option.isSome_iff_exists.mp hbucket with ⟨bk, hbk⟩
  have hshape : upload mfs w o b f (some fh) calls =
      ⟨⟨w.db, if calls.removeAfterTooLargeOk
          then removeObject (putObject w.store (objectNameFor b f)) (objectNameFor b f)
          else putObject w.store (objectNameFor b f)⟩,
        .error .fileTooLarge⟩ := by
    unfold upload
    simp only [hbg, hopen, hput, hbk, Option.isNone_some, Bool.true_eq_false,
      Bool.false_eq_true, if_false, ite_false, if_neg hsize, if_pos hover]
  refine ⟨by rw [hshape], by rw [hshape], by rw [hshape], ?_, ?_⟩
  · intro hrm
    rw [hshape]
    simp only [hrm, if_true, ite_true]
    simp [removeObject, List.mem_filter]
  · intro fh2 h2
    unfold upload
    simp only [hbg, hbk, Option.isNone_some, Bool.true_eq_false, Bool.false_eq_true,
      if_false, ite_false, if_pos h2]

/-- Witness for C4 amended: same scenario as the counterexample but with a
succeeding removal; the object is gone and TooLarge is returned, and an
oversized declared size is rejected with the state untouched. -/
theorem upload_toolarge_recheck_witness :
    (upload 10 ⟨⟨[⟨1, 7, "docs", none⟩], [], [], []⟩, []⟩ 7 1 2 (some ⟨5, "a", "", "h"⟩)
      (uploadCallsOk 11)).result = .error .fileTooLarge ∧
    ((upload 10 ⟨⟨[⟨1, 7, "docs", none⟩], [], [], []⟩, []⟩ 7 1 2 (some ⟨5, "a", "", "h"⟩)
      (uploadCallsOk 11)).world).db = ⟨[⟨1, 7, "docs", none⟩], [], [], []⟩ ∧
    ((upload 10 ⟨⟨[⟨1, 7, "docs", none⟩], [], [], []⟩, []⟩ 7 1 2 (some ⟨5, "a", "", "h"⟩)
      (uploadCallsOk 11)).world).store =
      (if (uploadCallsOk 11).removeAfterTooLargeOk
        then removeObject (putObject [] (objectNameFor 1 2)) (objectNameFor 1 2)
        else putObject [] (objectNameFor 1 2)) ∧
    ((uploadCallsOk 11).removeAfterTooLargeOk = true →
      objectNameFor 1 2 ∉ ((upload 10 ⟨⟨[⟨1, 7, "docs", none⟩], [], [], []⟩, []⟩ 7 1 2
        (some ⟨5, "a", "", "h"⟩) (uploadCallsOk 11)).world).store) ∧
    (∀ fh2 : FileHeader, (10 : Int) < fh2.size →
      upload 10 ⟨⟨[⟨1, 7, "docs", none⟩], [], [], []⟩, []⟩ 7 1 2 (some fh2) (uploadCallsOk 11) =
        ⟨⟨⟨[⟨1, 7, "docs", none⟩], [], [], []⟩, []⟩, .error .fileTooLarge⟩) :=
  upload_toolarge_recheck 10 ⟨⟨[⟨1, 7, "docs", none⟩], [], [], []⟩, []⟩ 7 1 2
    ⟨5, "a", "", "h"⟩ (uploadCallsOk 11) 11
    rfl rfl rfl (by decide) (by decide) (by decide)

/-- C5: file Delete removes the metadata row first (ownership-checked by the
repository's join, returning the deleted record, or NotFound when the file is
absent or not owned), and only then removes the object, then applies the
(-size, -1) usage delta, then records a snapshot. Consequently, when object
removal fails the error state already lacks the metadata row while the object
store is untouched: an orphaned object, never an orphaned metadata row. The
success equation shows the full order delta-then-snapshot applied after the
removal. -/
theorem delete_metadata_first (w : World) (o b f : Nat) (calls : DeleteCalls)
    (hrepo : calls.repoOk = true) :
    (repoDeleteFile w.db o b f = none →
      deleteFile w o b f calls = (w, .error .fileNotFound)) ∧
    (∀ m db1, repoDeleteFile w.db o b f = some (m, db1) →
      (∀ g ∈ db1.files, ¬(g.id = f ∧ g.bucketID = b)) ∧
      (calls.removeOk = false →
        deleteFile w o b f calls = (⟨db1, w.store⟩, .error (.removeObjectErr m.objectName))) ∧
      (calls.removeOk = true → calls.updateUsageOk = true → calls.snapshotOk = true →
        deleteFile w o b f calls =
          ((⟨recordUsageSnapshot { db1 with usage := updateUsage db1.usage b (-m.sizeBytes) (-1) } o,
             removeObject w.store m.objectName⟩ : World), .ok ()))) := by
  refine ⟨?_, ?_⟩
  · intro hnone
    unfold deleteFile
    simp only [hrepo, Bool.true_eq_false, if_false, ite_false, hnone]
  · intro m db1 hsome
    refine ⟨?_, ?_, ?_⟩
    · intro g hg
      unfold repoDeleteFile at hsome
      split at hsome
      · split at hsome
        · next m2 hfind =>
          have hdb1 : { w.db with files := w.db.files.filter (fun x => !(x.id == f && x.bucketID == b)) } = db1 := by
            injection hsome with hpair; injection hpair
          rw [← hdb1] at hg
          have hgp := List.of_mem_filter hg
          intro hc
          simp [hc.1, hc.2] at hgp
        · exact absurd hsome (by simp)
      · exact absurd hsome (by simp)
    · intro hrm
      unfold deleteFile
      simp only [hrepo, Bool.true_eq_false, if_false, ite_false, hsome, hrm, if_true, ite_true]
    · intro hrm husage hsnap
      unfold deleteFile
      simp only [hrepo, hrm, husage, hsnap, Bool.true_eq_false, if_false, ite_false,
        hsome, if_true, ite_true]

/-- Witness for C5: one owned file; its removal from the object store fails,
and the error state already lacks the metadata row while the object is still
stored; with succeeding calls the full delta-and-snapshot state is reached. -/
theorem delete_metadata_first_witness :
    (repoDeleteFile ⟨[⟨1, 7, "docs", none⟩], [⟨2, 1, "1/2", "f", 3, "t", "c"⟩], [⟨1, 3, 1⟩], []⟩ 7 1 2 = none →
      deleteFile ⟨⟨[⟨1, 7, "docs", none⟩], [⟨2, 1, "1/2", "f", 3, "t", "c"⟩], [⟨1, 3, 1⟩], []⟩, ["1/2"]⟩ 7 1 2 ⟨true, false, true, true⟩ =
        (⟨⟨[⟨1, 7, "docs", none⟩], [⟨2, 1, "1/2", "f", 3, "t", "c"⟩], [⟨1, 3, 1⟩], []⟩, ["1/2"]⟩, .error .fileNotFound)) ∧
    (∀ m db1, repoDeleteFile ⟨[⟨1, 7, "docs", none⟩], [⟨2, 1, "1/2", "f", 3, "t", "c"⟩], [⟨1, 3, 1⟩], []⟩ 7 1 2 = some (m, db1) →
      (∀ g ∈ db1.files, ¬(g.id = 2 ∧ g.bucketID = 1)) ∧
      ((⟨true, false, true, true⟩ : DeleteCalls).removeOk = false →
        deleteFile ⟨⟨[⟨1, 7, "docs", none⟩], [⟨2, 1, "1/2", "f", 3, "t", "c"⟩], [⟨1, 3, 1⟩], []⟩, ["1/2"]⟩ 7 1 2 ⟨true, false, true, true⟩ =
          (⟨db1, ["1/2"]⟩, .error (.removeObjectErr m.objectName))) ∧
      ((⟨true, false, true, true⟩ : DeleteCalls).removeOk = true →
        (⟨true, false, true, true⟩ : DeleteCalls).updateUsageOk = true →
        (⟨true, false, true, true⟩ : DeleteCalls).snapshotOk = true →
        deleteFile ⟨⟨[⟨1, 7, "docs", none⟩], [⟨2, 1, "1/2", "f", 3, "t", "c"⟩], [⟨1, 3, 1⟩], []⟩, ["1/2"]⟩ 7 1 2 ⟨true, false, true, true⟩ =
          ((⟨recordUsageSnapshot { db1 with usage := updateUsage db1.usage 1 (-m.sizeBytes) (-1) } 7,
             removeObject ["1/2"] m.objectName⟩ : World), .ok ()))) :=
  delete_metadata_first
    ⟨⟨[⟨1, 7, "docs", none⟩], [⟨2, 1, "1/2", "f", 3, "t", "c"⟩], [⟨1, 3, 1⟩], []⟩, ["1/2"]⟩
    7 1 2 ⟨true, false, true, true⟩ rfl

/-- C9 counterexample: every call succeeds except RecordUsageSnapshot, whose
failure the source discards with a blank assignment; Upload nevertheless
returns the stored metadata successfully, refuting the claim that a snapshot
failure is propagated to the caller as an error. -/
theorem upload_snapshot_failure_ignored_counterexample :
    (upload 100 ⟨⟨[⟨1, 7, "docs", none⟩], [], [], []⟩, []⟩ 7 1 2
      (some ⟨11, "notes.txt", "text/plain", "abc"⟩)
      ⟨true, true, some 11, true, true, true, true, false⟩).result =
      .ok ⟨2, 1, objectNameFor 1 2, "notes.txt", 11, "text/plain", "abc"⟩ := by
  decide

/-- C9 amended: after metadata is persisted, a failure applying the
(+size, +1) usage delta is surfaced to the caller with metadata and object
left persisted (first conjunct: the error state keeps the new file row and
the stored object); a failure of the subsequent snapshot step is ignored and
Upload returns the stored metadata successfully (second conjunct). -/
theorem upload_post_persist_failures
    (mfs : Int) (w : World) (o b f : Nat) (fh : FileHeader) (calls : UploadCalls)
    (rep : Int) (db1 : DB)
    (hbg : calls.bucketGetOk = true)
    (hopen : calls.openOk = true)
    (hput : calls.putResult = some rep)
    (hbucket : (getBucket w.db o b).isSome = true)
    (hsize : ¬mfs < fh.size)
    (hactual : ¬(0 < mfs ∧ mfs < actualSizeOf rep fh.size))
    (hcreateOk : calls.createOk = true)
    (hrc : repoCreate w.db ⟨f, b, objectNameFor b f, sanitizeFilename fh.filename,
      actualSizeOf rep fh.size, detectContentType fh, fh.digestHex⟩ = some db1)
    (husage : calls.updateUsageOk = false) :
    upload mfs w o b f (some fh) calls =
      ⟨⟨db1, putObject w.store (objectNameFor b f)⟩, .error .updateUsageFailed⟩ ∧
    (upload mfs w o b f (some fh)
        { calls with updateUsageOk := true, snapshotOk := false }).result =
      .ok ⟨f, b, objectNameFor b f, sanitizeFilename fh.filename,
        actualSizeOf rep fh.size, detectContentType fh, fh.digestHex⟩ := by
  rcases Option.isSome_iff_exists.mp hbucket with ⟨bk, hbk⟩
  constructor
  · unfold upload
    simp only [hbg, hopen, hput, hbk, Option.isNone_some, Bool.true_eq_false,
      Bool.false_eq_true, if_false, ite_false, if_neg hsize, if_neg hactual,
      hcreateOk, hrc, husage, if_true, ite_true]
  · unfold upload
    simp only [hbg, hopen, hput, hbk, Option.isNone_some, Bool.true_eq_false,
      Bool.false_eq_true, if_false, ite_false, if_neg hsize, if_neg hactual,
      hcreateOk, hrc, if_true, ite_true]

/-- Witness for C9 amended: concrete upload whose usage-delta write fails —
the error is surfaced while the new row and object remain — and whose
snapshot-failing variant succeeds. -/
theorem upload_post_persist_failures_witness :
    upload 100 ⟨⟨[⟨1, 7, "docs", none⟩], [], [], []⟩, []⟩ 7 1 2
        (some ⟨11, "notes.txt", "text/plain", "abc"⟩)
        ⟨true, true, some 11, true, true, true, false, true⟩ =
      ⟨⟨⟨[⟨1, 7, "docs", none⟩],
          [⟨2, 1, objectNameFor 1 2, "notes.txt", 11, "text/plain", "abc"⟩], [], []⟩,
          putObject [] (objectNameFor 1 2)⟩,
        .error .updateUsageFailed⟩ ∧
    (upload 100 ⟨⟨[⟨1, 7, "docs", none⟩], [], [], []⟩, []⟩ 7 1 2
        (some ⟨11, "notes.txt", "text/plain", "abc"⟩)
        { (⟨true, true, some 11, true, true, true, false, true⟩ : UploadCalls) with
            updateUsageOk := true, snapshotOk := false }).result =
      .ok ⟨2, 1, objectNameFor 1 2, "notes.txt", 11, "text/plain", "abc"⟩ :=
  upload_post_persist_failures 100 ⟨⟨[⟨1, 7, "docs", none⟩], [], [], []⟩, []⟩ 7 1 2
    ⟨11, "notes.txt", "text/plain", "abc"⟩
    ⟨true, true, some 11, true, true, true, false, true⟩ 11
    ⟨[⟨1, 7, "docs", none⟩], [⟨2, 1, objectNameFor 1 2, "notes.txt", 11, "text/plain", "abc"⟩], [], []⟩
    rfl rfl rfl (by decide) (by decide) (by decide) rfl (by decide) rfl

/-- C10 counterexample: the store reports 0 written bytes (putResult 0) for a
declared size of 5; Upload succeeds and records SizeBytes 5 — the declared
size, not the store-reported size — refuting the claim that SizeBytes always
equals the store-reported written size. -/
theorem upload_sizebytes_not_store_reported_counterexample :
    (upload 100 ⟨⟨[⟨1, 7, "docs", none⟩], [], [], []⟩, []⟩ 7 1 2 (some ⟨5, "a", "", "h"⟩)
      (uploadCallsOk 0)).result =
      .ok ⟨2, 1, objectNameFor 1 2, "a", 5, "application/octet-stream", "h"⟩ := by
  decide

/-- C10 amended: the SizeBytes recorded in a successful Upload equals the
store-reported size whenever that report is positive, and falls back to the
caller-declared size when the store reports zero or less. -/
theorem upload_sizebytes_fallback
    (mfs : Int) (w : World) (o b f : Nat) (fh : FileHeader) (calls : UploadCalls)
    (rep : Int) (db1 : DB)
    (hbg : calls.bucketGetOk = true)
    (hopen : calls.openOk = true)
    (hput : calls.putResult = some rep)
    (hbucket : (getBucket w.db o b).isSome = true)
    (hsize : ¬mfs < fh.size)
    (hactual : ¬(0 < mfs ∧ mfs < actualSizeOf rep fh.size))
    (hcreateOk : calls.createOk = true)
    (hrc : repoCreate w.db ⟨f, b, objectNameFor b f, sanitizeFilename fh.filename,
      actualSizeOf rep fh.size, detectContentType fh, fh.digestHex⟩ = some db1)
    (husage : calls.updateUsageOk = true) :
    (upload mfs w o b f (some fh) calls).result =
      .ok ⟨f, b, objectNameFor b f, sanitizeFilename fh.filename,
        actualSizeOf rep fh.size, detectContentType fh, fh.digestHex⟩ ∧
    (0 < rep → actualSizeOf rep fh.size = rep) ∧
    (rep ≤ 0 → actualSizeOf rep fh.size = fh.size) := by
  rcases Option.isSome_iff_exists.mp hbucket with ⟨bk, hbk⟩
  refine ⟨?_, ?_, ?_⟩
  · unfold upload
    simp only [hbg, hopen, hput, hbk, Option.isNone_some, Bool.true_eq_false,
      Bool.false_eq_true, if_false, ite_false, if_neg hsize, if_neg hactual,
      hcreateOk, hrc, husage, if_true, ite_true]
  · intro hp
    unfold actualSizeOf
    rw [if_neg (by omega)]
  · intro hp
    unfold actualSizeOf
    rw [if_pos hp]

/-- Witness for C10 amended: store reports 7 for declared size 5; the stored
SizeBytes is 7. -/
theorem upload_sizebytes_fallback_witness :
    (upload 100 ⟨⟨[⟨1, 7, "docs", none⟩], [], [], []⟩, []⟩ 7 1 2 (some ⟨5, "a", "", "h"⟩)
      (uploadCallsOk 7)).result =
      .ok ⟨2, 1, objectNameFor 1 2, "a", actualSizeOf 7 5, "application/octet-stream", "h"⟩ ∧
    ((0 : Int) < 7 → actualSizeOf 7 5 = 7) ∧
    ((7 : Int) ≤ 0 → actualSizeOf 7 5 = 5) :=
  upload_sizebytes_fallback 100 ⟨⟨[⟨1, 7, "docs", none⟩], [], [], []⟩, []⟩ 7 1 2
    ⟨5, "a", "", "h"⟩ (uploadCallsOk 7) 7
    ⟨[⟨1, 7, "docs", none⟩], [⟨2, 1, objectNameFor 1 2, "a", actualSizeOf 7 5, "application/octet-stream", "h"⟩], [], []⟩
    rfl rfl rfl (by decide) (by decide) (by decide) rfl (by decide) rfl

/-- C8: ValidateScope succeeds exactly when the token is unexpired, its
bucket and object equal the requested ones, and the requested direction is
within the granted capability (write needs CanWrite, read needs CanRead);
in particular an expired token fails even when all other fields match, and a
write request on a read-only token fails. Whenever ValidateScope is false,
GeneratePresignedWithAccessCheck with that scope token returns the
access-denied error and no URL. -/
theorem validateScope_characterization (now : Int) (tok : ScopeToken) (b o : String)
    (write : Bool) :
    (validateScope now tok b o write = true ↔
      ¬tok.expiresAt < now ∧ tok.bucket = b ∧ tok.object = o ∧
      (write = true → tok.canWrite = true) ∧ (write = false → tok.canRead = true)) ∧
    (∀ userID ownerID calls, validateScope now tok b o write = false →
      generatePresignedWithAccessCheck now b o userID ownerID (some tok) write calls =
        .error .accessDeniedScope) := by
  constructor
  · constructor
    · intro hv
      unfold validateScope at hv
      split_ifs at hv with h1 h2 h3 h4 h5
      refine ⟨h1, not_not.mp h2, not_not.mp h3, ?_, ?_⟩
      · intro hw
        cases hcw : tok.canWrite with
        | true => rfl
        | false => exact absurd (by rw [hw, hcw]; rfl) h4
      · intro hw
        cases hcr : tok.canRead with
        | true => rfl
        | false => exact absurd (by rw [hw, hcr]; rfl) h5
    · rintro ⟨h1, h2, h3, h4, h5⟩
      unfold validateScope
      have hw4 : ¬((write && !tok.canWrite) = true) := by
        cases hw : write with
        | true => rw [h4 hw]; simp
        | false => simp
      have hw5 : ¬((!write && !tok.canRead) = true) := by
        cases hw : write with
        | true => simp
        | false => rw [h5 hw]; simp
      rw [if_neg h1, if_neg (by simpa using h2), if_neg (by simpa using h3),
        if_neg hw4, if_neg hw5]
  · intro userID ownerID calls h
    unfold generatePresignedWithAccessCheck
    simp only [h, if_pos]

/-- C7 counterexample: a presigned-URL request with method DELETE on the
HTTP handler path does not fail with InvalidMethod: the handler computes
isPut = (method == PUT), treats DELETE as a read, and answers 200 with a
minted GET URL. -/
theorem handler_delete_method_counterexample :
    handlerGeneratePresignedURL 0 ⟨[⟨1, 9, "b", none⟩], [⟨2, 1, "o", "f", 3, "t", "c"⟩]⟩ 9 1 2
      (some "DELETE") ⟨some "u", some "p"⟩ ⟨[], []⟩ =
      (⟨200, some "u", some "DELETE"⟩, ⟨[], []⟩) := by
  decide

/-- C7 amended: Service.GenerateURL rejects every method other than GET and
PUT with ErrInvalidMethod, mints no URL and leaves the repository unchanged;
the HTTP handler path, by contrast, does not reject such methods (it treats
any non-PUT method as GET — see the counterexample). -/
theorem generateURL_rejects_invalid_method (ttl now : Int) (recID audID : Nat)
    (repo : PresignRepo) (bn on2 method : String) (uID bID fID : Nat) (calls : GenCalls)
    (h1 : method ≠ "GET") (h2 : method ≠ "PUT") :
    generateURL ttl now recID audID repo bn on2 method uID bID fID calls =
      (repo, .error .invalidMethod) := by
  unfold generateURL
  rw [if_pos ⟨h1, h2⟩]

/-- Witness for C7 amended: method DELETE is rejected with InvalidMethod and
the repository is returned unchanged. -/
theorem generateURL_rejects_invalid_method_witness :
    generateURL 60 0 1 2 ⟨[], []⟩ "b" "o" "DELETE" 9 1 2 ⟨some "g", some "p", true, true⟩ =
      (⟨[], []⟩, .error .invalidMethod) :=
  generateURL_rejects_invalid_method 60 0 1 2 ⟨[], []⟩ "b" "o" "DELETE" 9 1 2
    ⟨some "g", some "p", true, true⟩ (by decide) (by decide)

/-- C6 counterexample: the HTTP handler path mints and returns a presigned
URL (status 200, url u) while the issuance and audit stores stay empty — a
URL is handed to the caller with no persisted issuance record and no audit
record, refuting the claim for "every path that mints a presigned URL". -/
theorem handler_mints_url_without_records_counterexample :
    handlerGeneratePresignedURL 0 ⟨[⟨1, 9, "b", none⟩], [⟨2, 1, "o", "f", 3, "t", "c"⟩]⟩ 9 1 2
      (some "GET") ⟨some "u", some "p"⟩ ⟨[], []⟩ =
      (⟨200, some "u", some "GET"⟩, ⟨[], []⟩) := by
  decide

/-- C6 amended: Service.GenerateURL itself never returns a URL without both
persisted records: a success appends exactly the returned issuance record and
audit record (first conjunct); a SaveRecord failure aborts with that error
and no repository change (second conjunct); a SaveAudit failure aborts with
that error, so no success outcome exists (third conjunct). The HTTP handler
path, however, never writes to the presigned repository at all (fourth
conjunct), so the guarantee does not extend to every URL-minting path. -/
theorem generateURL_audit_guarantee (ttl now : Int) (recID audID : Nat)
    (repo : PresignRepo) (bn on2 method : String) (uID bID fID : Nat) (calls : GenCalls) :
    (∀ repo2 out,
      generateURL ttl now recID audID repo bn on2 method uID bID fID calls = (repo2, .ok out) →
      repo2.records = repo.records ++ [out.issued] ∧
      repo2.audits = repo.audits ++ [out.audit]) ∧
    (calls.saveRecordOk = false →
      ∃ e, generateURL ttl now recID audID repo bn on2 method uID bID fID calls = (repo, .error e)) ∧
    (calls.saveAuditOk = false → ∀ repo2 out,
      generateURL ttl now recID audID repo bn on2 method uID bID fID calls ≠ (repo2, .ok out)) ∧
    (∀ deps uid bid fid mq mc repo3,
      (handlerGeneratePresignedURL now deps uid bid fid mq mc repo3).2 = repo3) := by
  refine ⟨?_, ?_, ?_, ?_⟩
  · intro repo2 out h
    simp only [generateURL] at h
    by_cases hm : method ≠ "GET" ∧ method ≠ "PUT"
    · rw [if_pos hm] at h
      simp at h
    · rw [if_neg hm] at h
      rcases hurl : (if method = "GET" then calls.presignGet else calls.presignPut)
        with _ | urlStr
      · simp only [hurl] at h
        simp at h
      · simp only [hurl] at h
        by_cases hrec : calls.saveRecordOk = false
        · rw [if_pos hrec] at h
          simp at h
        · rw [if_neg hrec] at h
          by_cases haud : calls.saveAuditOk = false
          · rw [if_pos haud] at h
            simp at h
          · rw [if_neg haud] at h
            injection h with hr ho
            injection ho with ho2
            subst hr
            subst ho2
            exact ⟨rfl, rfl⟩
  · intro hrec
    simp only [generateURL]
    by_cases hm : method ≠ "GET" ∧ method ≠ "PUT"
    · rw [if_pos hm]
      exact ⟨.invalidMethod, rfl⟩
    · rw [if_neg hm]
      rcases hurl : (if method = "GET" then calls.presignGet else calls.presignPut)
        with _ | urlStr
      · simp only [hurl]
        exact ⟨.presignFailed, rfl⟩
      · simp only [hurl]
        rw [if_pos hrec]
        exact ⟨.saveRecordFailed, rfl⟩
  · intro haud repo2 out h
    simp only [generateURL] at h
    by_cases hm : method ≠ "GET" ∧ method ≠ "PUT"
    · rw [if_pos hm] at h
      simp at h
    · rw [if_neg hm] at h
      rcases hurl : (if method = "GET" then calls.presignGet else calls.presignPut)
        with _ | urlStr
      · simp only [hurl] at h
        simp at h
      · simp only [hurl] at h
        by_cases hrec : calls.saveRecordOk = false
        · rw [if_pos hrec] at h
          simp at h
        · rw [if_neg hrec, if_pos haud] at h
          simp at h
  · intro deps uid bid fid mq mc repo3
    simp only [handlerGeneratePresignedURL]
    split
    · rfl
    · split
      · rfl
      · split_ifs
        · rfl
        · rfl
        · split <;> rfl

end GoDrive
